import Mathlib

/-!
Shallow embedding of the grids-jack real-time rhythm engine
(src/sample_player.{h,cpp}, src/sample_bank.{h,cpp},
src/pattern_generator_wrapper.{h,cpp}) and proofs about the frozen
specification claims.

Modelling conventions:
* C machine integers become `Nat` (or `Int` for signed values), with an
  explicit `% 2^32` / `% 2^64` wherever C overflow semantics matter.
* C `float` values become `ℚ`; the transcendental library calls `cosf`,
  `sinf` and the constant `M_PI` cannot be represented exactly, so they are
  abstracted as parameters (`cosF sinF : ℚ → ℚ`, `piQ : ℚ`).  No claim
  depends on their values.
* The external Grids pattern algorithm (grids/pattern_generator.h, a
  collaborator that is not part of src/) is abstracted as a state type `P`
  together with a record of operations `ProviderOps P`.
* `std::vector` / `std::array` become `List`, with out-of-range access
  modelled by `List.getD`.
-/

namespace GridsJack

/-- Pool capacity, `kMaxVoices` in src/sample_player.h line 27. -/
def kMaxVoices : ℕ := 256

/-- Capacity of the pending-trigger table, `kMaxPendingTriggers` in
src/pattern_generator_wrapper.h line 27. -/
def kMaxPendingTriggers : ℕ := 64

/-- Number of drum parts, `DRUM_PART_COUNT` in
src/pattern_generator_wrapper.h line 41 (also `grids::kNumParts`). -/
def drumPartCount : ℕ := 3

/-- Modulus of C `uint32_t` arithmetic. -/
def uint32Mod : ℕ := 2 ^ 32

/-- Modulus of C `size_t` arithmetic (64-bit platform). -/
def sizeTMod : ℕ := 2 ^ 64

/-- Reinterpretation of a `uint32_t` value as `int32_t`, as performed by
`static_cast<int32_t>` in src/pattern_generator_wrapper.cpp line 209. -/
def toInt32 (v : ℕ) : ℤ := if v < 2 ^ 31 then (v : ℤ) else (v : ℤ) - 2 ^ 32

/-- The default equal pan gain 0.70710678f from src/sample_player.h,
modelled as the exact rational value of the literal's decimal form. -/
def kDefaultPanGain : ℚ := 70710678 / 100000000

/-- A decoded audio sample, struct `Sample` in src/sample_bank.h lines
27-34.  Only the fields read by the engine core are modelled (`midi_note`
and `filename` are metadata used for logging). -/
structure Sample where
  data : List ℚ
  length : ℕ
deriving Repr, DecidableEq

/-- The sample-bank lookup `SampleBank::GetSample` (src/sample_bank.cpp
lines 100-106) returns a pointer into a `std::map`, which is `none` when
the note is absent.  The bank is modelled by its lookup function. -/
def SampleLookup : Type := ℕ → Option Sample

/-- One playback voice, struct `Voice` in src/sample_player.h lines 30-70. -/
structure Voice where
  sampleData : List ℚ
  sampleLength : ℕ
  position : ℕ
  gain : ℚ
  panLeft : ℚ
  panRight : ℚ
  active : Bool
deriving Repr, DecidableEq

/-- `Voice::Reset` (src/sample_player.h lines 44-52): the inactive voice. -/
def voiceReset : Voice :=
  { sampleData := [], sampleLength := 0, position := 0, gain := 1,
    panLeft := kDefaultPanGain, panRight := kDefaultPanGain, active := false }

instance : Inhabited Voice := ⟨voiceReset⟩

/-- `Voice::Init` (src/sample_player.h lines 55-64). -/
def voiceInit (data : List ℚ) (length : ℕ) (velocity left right : ℚ) : Voice :=
  { sampleData := data, sampleLength := length, position := 0,
    gain := velocity, panLeft := left, panRight := right, active := true }

/-- State of class `SamplePlayer` (src/sample_player.h lines 102-119). -/
structure PlayerState where
  voicePool : List Voice
  nextVoiceIndex : ℕ
  bank : Option SampleLookup
  sampleRate : ℕ
  activeVoiceCount : ℕ
  totalTriggers : ℕ

/-- `SamplePlayer::Init` (src/sample_player.cpp lines 43-54): all voices
reset, counters and allocation cursor zeroed, bank and rate stored. -/
def initPlayer (bank : SampleLookup) (sampleRate : ℕ) : PlayerState :=
  { voicePool := List.replicate kMaxVoices voiceReset,
    nextVoiceIndex := 0, bank := some bank, sampleRate := sampleRate,
    activeVoiceCount := 0, totalTriggers := 0 }

section PlayerOps

variable (cosF sinF : ℚ → ℚ) (piQ : ℚ)

/-- `SamplePlayer::Trigger` (src/sample_player.cpp lines 56-96).
The float trig calls `cosf`/`sinf` and `M_PI` are abstracted by the
parameters `cosF`, `sinF`, `piQ`. -/
def trigger (s : PlayerState) (midiNote : ℕ) (velocity pan : ℚ) : PlayerState :=
  match s.bank with
  | none => s
  | some bank =>
    match bank midiNote with
    | none => s
    | some smp =>
      if smp.data = [] then s
      else
        let vel1 : ℚ := if velocity < 0 then 0 else velocity
        let vel2 : ℚ := if 1 < vel1 then 1 else vel1
        let theta : ℚ := (pan + 1) * (1 / 4) * piQ
        let wasActive := (s.voicePool.getD s.nextVoiceIndex voiceReset).active
        let v := voiceInit smp.data smp.length vel2 (cosF theta) (sinF theta)
        { s with
          voicePool := s.voicePool.set s.nextVoiceIndex v,
          activeVoiceCount :=
            if wasActive then s.activeVoiceCount else s.activeVoiceCount + 1,
          totalTriggers := s.totalTriggers + 1,
          nextVoiceIndex := (s.nextVoiceIndex + 1) % kMaxVoices }

/-- The inner mixing loop of `SamplePlayer::Process`
(src/sample_player.cpp lines 136-138): `output[i] += data[pos+i] * gain`
for `i < n`. -/
def addScaled (data : List ℚ) (pos : ℕ) (gain : ℚ) (n : ℕ)
    (out : List ℚ) : List ℚ :=
  out.mapIdx fun i x => if i < n then x + data.getD (pos + i) 0 * gain else x

/-- The voice loop of `SamplePlayer::Process` (src/sample_player.cpp lines
112-147): visits voices in order, skipping inactive ones, resetting
finished ones, counting and mixing the rest.  Returns the updated pool,
the recomputed active-voice count and the output buffer. -/
def mixLoop (numFrames : ℕ) : List Voice → List ℚ → List Voice × ℕ × List ℚ
  | [], out => ([], 0, out)
  | v :: vs, out =>
    if v.active = false then
      let r := mixLoop numFrames vs out
      (v :: r.1, r.2.1, r.2.2)
    else if v.sampleLength ≤ v.position then
      let r := mixLoop numFrames vs out
      (voiceReset :: r.1, r.2.1, r.2.2)
    else
      let framesToRender := min numFrames (v.sampleLength - v.position)
      let out1 := addScaled v.sampleData v.position v.gain framesToRender out
      let v1 := { v with position := v.position + framesToRender }
      let v2 := if v1.sampleLength ≤ v1.position then voiceReset else v1
      let r := mixLoop numFrames vs out1
      (v2 :: r.1, r.2.1 + 1, r.2.2)

/-- `SamplePlayer::Process` (src/sample_player.cpp lines 98-148).  The
`output == nullptr` and `num_frames == 0` early returns are both modelled
by the zero-frame guard (a null buffer is outside the data model); the
`memset` becomes a zero-filled buffer. -/
def process (s : PlayerState) (numFrames : ℕ) : PlayerState × List ℚ :=
  if numFrames = 0 then (s, [])
  else
    let r := mixLoop numFrames s.voicePool (List.replicate numFrames 0)
    ({ s with voicePool := r.1, activeVoiceCount := r.2.1 }, r.2.2)

/-- The stereo voice loop of `SamplePlayer::ProcessStereo`
(src/sample_player.cpp lines 165-198), mixing into two buffers with the
per-channel gains `gain * pan_left` and `gain * pan_right`. -/
def mixLoopStereo (numFrames : ℕ) :
    List Voice → List ℚ → List ℚ → List Voice × ℕ × List ℚ × List ℚ
  | [], left, right => ([], 0, left, right)
  | v :: vs, left, right =>
    if v.active = false then
      let r := mixLoopStereo numFrames vs left right
      (v :: r.1, r.2.1, r.2.2)
    else if v.sampleLength ≤ v.position then
      let r := mixLoopStereo numFrames vs left right
      (voiceReset :: r.1, r.2.1, r.2.2)
    else
      let framesToRender := min numFrames (v.sampleLength - v.position)
      let left1 :=
        addScaled v.sampleData v.position (v.gain * v.panLeft) framesToRender left
      let right1 :=
        addScaled v.sampleData v.position (v.gain * v.panRight) framesToRender right
      let v1 := { v with position := v.position + framesToRender }
      let v2 := if v1.sampleLength ≤ v1.position then voiceReset else v1
      let r := mixLoopStereo numFrames vs left1 right1
      (v2 :: r.1, r.2.1 + 1, r.2.2)

/-- `SamplePlayer::ProcessStereo` (src/sample_player.cpp lines 150-199). -/
def processStereo (s : PlayerState) (numFrames : ℕ) :
    PlayerState × List ℚ × List ℚ :=
  if numFrames = 0 then (s, [], [])
  else
    let r := mixLoopStereo numFrames s.voicePool
      (List.replicate numFrames 0) (List.replicate numFrames 0)
    ({ s with voicePool := r.1, activeVoiceCount := r.2.1 }, r.2.2)

end PlayerOps

/-- Modelled from the spec: the external density-map provider's native
step count (grids/pattern_generator.h `kStepsPerPattern`, a collaborator
header that is not part of src/).  Section 4.2 of the spec refers to it as
"the provider's native step count"; the Grids algorithm uses 32 steps per
pattern, matching the 32-step bound used throughout the wrapper. -/
def kStepsPerPattern : ℕ := 32

/-- A sample-to-drum-part mapping, struct `SampleMapping` in
src/pattern_generator_wrapper.h lines 45-57.  `drum_part` is modelled as a
plain natural number (its values come from `rand() % DRUM_PART_COUNT`). -/
structure SampleMapping where
  midiNote : ℕ
  drumPart : ℕ
  x : ℕ
  y : ℕ
  velocityPattern : List ℕ
  velocityStep : ℕ
  pan : ℚ
  lfoXPhase : ℚ
  lfoYPhase : ℚ
  lfoXFreq : ℚ
  lfoYFreq : ℚ
deriving Repr, DecidableEq

instance : Inhabited SampleMapping :=
  ⟨{ midiNote := 0, drumPart := 0, x := 0, y := 0, velocityPattern := [],
     velocityStep := 0, pan := 0, lfoXPhase := 0, lfoYPhase := 0,
     lfoXFreq := 0, lfoYFreq := 0 }⟩

/-- A deferred humanized trigger, struct `PendingTrigger` as used by
src/pattern_generator_wrapper.cpp lines 200-229 (the implementation also
stores a `pan` field; the stale declaration in the header lacks it, and
the .cpp is the authority). -/
structure PendingTrigger where
  midiNote : ℕ
  velocity : ℚ
  pan : ℚ
  delayFrames : ℤ
  active : Bool
deriving Repr, DecidableEq

/-- The humanize LCG `PatternGeneratorWrapper::HumanizeRand`
(src/pattern_generator_wrapper.cpp lines 195-198): the uint32 update
`state = state * 1664525 + 1013904223`, returning the new state. -/
def humanizeRand (state : ℕ) : ℕ := (state * 1664525 + 1013904223) % uint32Mod

/-- The jitter sample drawn in `QueueHumanizedTrigger`
(src/pattern_generator_wrapper.cpp line 209):
`HumanizeRand() % (2 * humanize_max_frames_ + 1)`, with the modulus
computed in uint32 arithmetic.  The first component of the pair is the
sampled delay, the second the updated RNG state. -/
def sampleDelay (rngState hmf : ℕ) : ℕ × ℕ :=
  let r := humanizeRand rngState
  (r % ((2 * hmf + 1) % uint32Mod), r)

/-- The slice of engine state that trigger routing touches: the humanize
window, the pending-trigger table, the humanize RNG and the pointed-to
`SamplePlayer` (fields of `PatternGeneratorWrapper`,
src/pattern_generator_wrapper.h lines 113 and 154-157). -/
structure TrigDest where
  humanizeMaxFrames : ℕ
  pending : List PendingTrigger
  rngState : ℕ
  player : PlayerState

section WrapperOps

variable (cosF sinF : ℚ → ℚ) (piQ : ℚ)

/-- `PatternGeneratorWrapper::QueueHumanizedTrigger`
(src/pattern_generator_wrapper.cpp lines 200-216): fill the first
inactive slot of the pending table with the note, velocity, pan and a
sampled delay (advancing the humanize RNG); when every slot is active,
fire into the sample player immediately. -/
def queueHumanizedTrigger (d : TrigDest) (midiNote : ℕ)
    (velocity pan : ℚ) : TrigDest :=
  match d.pending.findIdx? (fun t => !t.active) with
  | some i =>
    let r := sampleDelay d.rngState d.humanizeMaxFrames
    { d with
      pending := d.pending.set i
        { midiNote := midiNote, velocity := velocity, pan := pan,
          delayFrames := toInt32 r.1, active := true },
      rngState := r.2 }
  | none =>
    { d with player := trigger cosF sinF piQ d.player midiNote velocity pan }

/-- `PatternGeneratorWrapper::ProcessPendingTriggers`
(src/pattern_generator_wrapper.cpp lines 218-229): decrement every active
slot's delay; on crossing to ≤ 0, fire the trigger into the player and
free the slot. -/
def processPendingTriggers :
    List PendingTrigger → PlayerState → List PendingTrigger × PlayerState
  | [], pl => ([], pl)
  | t :: ts, pl =>
    if t.active then
      let d := t.delayFrames - 1
      if d ≤ 0 then
        let pl1 := trigger cosF sinF piQ pl t.midiNote t.velocity t.pan
        let r := processPendingTriggers ts pl1
        ({ t with delayFrames := d, active := false } :: r.1, r.2)
      else
        let r := processPendingTriggers ts pl
        ({ t with delayFrames := d } :: r.1, r.2)
    else
      let r := processPendingTriggers ts pl
      (t :: r.1, r.2)

/-- The routing step of `PatternGeneratorWrapper::ProcessTriggers`
(src/pattern_generator_wrapper.cpp lines 305-309): with a positive
humanize window the trigger goes through the pending queue, otherwise it
reaches the sample player directly. -/
def routeTrigger (d : TrigDest) (midiNote : ℕ) (velocity pan : ℚ) : TrigDest :=
  if 0 < d.humanizeMaxFrames then
    queueHumanizedTrigger cosF sinF piQ d midiNote velocity pan
  else
    { d with player := trigger cosF sinF piQ d.player midiNote velocity pan }

/-- `PatternGeneratorWrapper::EvaluateVelocityPattern`
(src/pattern_generator_wrapper.cpp lines 321-326): the velocity pattern
value at the mapping's own cursor, non-zero meaning high velocity.
The C++ vector indexing is modelled by `getD` with default 0 (reads are
in range whenever the pattern is non-empty, since the cursor only ever
advances modulo the pattern length). -/
def evaluateVelocityPattern (m : SampleMapping) : Bool :=
  m.velocityPattern.getD m.velocityStep 0 != 0

/-- The advance of a fired mapping's velocity cursor
(src/pattern_generator_wrapper.cpp lines 312-314). -/
def stepCursor (m : SampleMapping) : SampleMapping :=
  { m with velocityStep := (m.velocityStep + 1) % m.velocityPattern.length }

/-- The inner mapping loop of `ProcessTriggers` for one drum part
(src/pattern_generator_wrapper.cpp lines 297-316), with the routing of
each `(note, velocity, pan)` triple factored out into the returned list
(the routed state never feeds back into velocity evaluation or cursor
stepping, so emitting the triples in order and folding them through
`routeTrigger` afterwards is equivalent to the interleaved source). -/
def dispatchPart (part : ℕ) :
    List SampleMapping → List SampleMapping × List (ℕ × ℚ × ℚ)
  | [] => ([], [])
  | m :: rest =>
    if m.drumPart = part then
      let velocity : ℚ := if evaluateVelocityPattern m then 1 else 1 / 10
      let r := dispatchPart part rest
      (stepCursor m :: r.1, (m.midiNote, velocity, m.pan) :: r.2)
    else
      let r := dispatchPart part rest
      (m :: r.1, r.2)

/-- The outer part loop of `ProcessTriggers`
(src/pattern_generator_wrapper.cpp lines 294-318): visit the drum parts
in order and dispatch those whose trigger bit is set in the state
bitmask (`state & (1 << part)`). -/
def dispatchLoop (stBits : ℕ) :
    List ℕ → List SampleMapping → List SampleMapping × List (ℕ × ℚ × ℚ)
  | [], ms => (ms, [])
  | part :: parts, ms =>
    if stBits.testBit part then
      let r := dispatchPart part ms
      let r2 := dispatchLoop stBits parts r.1
      (r2.1, r.2 ++ r2.2)
    else
      dispatchLoop stBits parts ms

/-- The trigger emission of `PatternGeneratorWrapper::ProcessTriggers`
(src/pattern_generator_wrapper.cpp lines 292-319) over the three drum
parts. -/
def dispatchEmit (stBits : ℕ) (ms : List SampleMapping) :
    List SampleMapping × List (ℕ × ℚ × ℚ) :=
  dispatchLoop stBits (List.range drumPartCount) ms

/-- `PatternGeneratorWrapper::ProcessTriggers` including routing:
emission as in the source, then each emitted triple routed to the
humanize queue or the player in order. -/
def processTriggersW (stBits : ℕ) (ms : List SampleMapping)
    (d : TrigDest) : List SampleMapping × TrigDest :=
  let e := dispatchEmit stBits ms
  (e.1, e.2.foldl (fun d t => routeTrigger cosF sinF piQ d t.1 t.2.1 t.2.2) d)

end WrapperOps

/-- `PatternGeneratorWrapper::SetSpread` (src/pattern_generator_wrapper.cpp
lines 180-193) acting on the mapping list: no mappings is a no-op, a
single mapping gets pan 0, and n > 1 mappings get the linear spread
`-S + 2S·i/(n-1)`.  The write to the otherwise-unread `spread_` member is
dropped. -/
def setSpread (spread : ℚ) (ms : List SampleMapping) : List SampleMapping :=
  if ms.length = 0 then ms
  else if ms.length = 1 then ms.map (fun m => { m with pan := 0 })
  else
    ms.mapIdx fun i m =>
      { m with pan :=
          -spread + 2 * spread * (i : ℚ) / ((ms.length - 1 : ℕ) : ℚ) }

/-- `PatternGeneratorWrapper::UpdateFramesPerPulse`
(src/pattern_generator_wrapper.cpp lines 160-168): 24 pulses per quarter
note, truncated to uint32.  Float division is modelled as exact rational
division; the truncating cast becomes `Int.toNat ∘ Int.floor` (the value
is non-negative for positive BPM). -/
def updateFramesPerPulse (sampleRate : ℕ) (bpm : ℚ) : ℕ :=
  let pulsesPerSecond : ℚ := bpm * 24 / 60
  (⌊(sampleRate : ℚ) / pulsesPerSecond⌋).toNat

/-- Interface of the external density-map provider
(grids/pattern_generator.h, a collaborator outside src/): global pattern
state `P` with the operations the wrapper calls.  `stateBits` is the
trigger bitmask `state()`, `stepIdx`/`setStep` the step index accessors,
`getX`/`getY`/`setX`/`setY` the coordinate settings, `density` the
per-part density setting and `getDrumMapLevel` the per-step intensity
lookup. -/
structure ProviderOps (P : Type) where
  tickClock : P → P
  stepIdx : P → ℕ
  setStep : P → ℕ → P
  stateBits : P → ℕ
  incPulseCounter : P → P
  getX : P → ℕ
  getY : P → ℕ
  setX : P → ℕ → P
  setY : P → ℕ → P
  density : P → ℕ → ℕ
  getDrumMapLevel : P → ℕ → ℕ → ℕ → ℕ → ℕ

/-- State of class `PatternGeneratorWrapper`
(src/pattern_generator_wrapper.h lines 112-157), with the pointed-to
`SamplePlayer` inlined as a value (the `sample_player_ == nullptr` early
return of `Process` is outside the modelled configurations) and the
external provider state abstracted as `P`. -/
structure WrapperState (P : Type) where
  player : PlayerState
  sampleRate : ℕ
  bpm : ℚ
  lfoEnabled : Bool
  numSteps : ℕ
  framesSinceLastTick : ℕ
  framesPerPulse : ℕ
  mappings : List SampleMapping
  prevPatternBits : List ℕ
  pendingPatternBits : List ℕ
  pendingPatternX : ℕ
  pendingPatternY : ℕ
  patternChanged : Bool
  humanizeAmount : ℚ
  humanizeMaxFrames : ℕ
  pendingTriggers : List PendingTrigger
  humanizeRngState : ℕ
  provider : P

/-- `PatternGeneratorWrapper::SetHumanize`
(src/pattern_generator_wrapper.cpp lines 170-178): derive the jitter
window `amount · 1.5 · framesPerPulse` (truncated to uint32) and, when it
is positive, pre-advance the pulse clock by the window. -/
def setHumanize {P : Type} (amount : ℚ) (s : WrapperState P) : WrapperState P :=
  let hmf := (⌊amount * (3 / 2) * (s.framesPerPulse : ℚ)⌋).toNat
  let s1 := { s with humanizeAmount := amount, humanizeMaxFrames := hmf }
  if 0 < hmf then
    { s1 with framesSinceLastTick := s1.framesSinceLastTick + hmf }
  else s1

section PatternBits

variable {P : Type} (ops : ProviderOps P)

/-- One part's row of `PatternGeneratorWrapper::ComputePatternBits`
(src/pattern_generator_wrapper.cpp lines 358-373): set bit `step` when
the provider's intensity exceeds the bitwise-complement threshold
`~density` (uint8 complement, i.e. `255 - density`). -/
def computePartBits (p : P) (numSteps inst x y : ℕ) : ℕ :=
  (List.range numSteps).foldl
    (fun bits step =>
      if 255 - ops.density p inst % 256 < ops.getDrumMapLevel p step inst x y
      then bits ||| (1 <<< step) else bits)
    0

/-- `PatternGeneratorWrapper::ComputePatternBits` over the three drum
parts. -/
def computePatternBits (p : P) (numSteps x y : ℕ) : List ℕ :=
  (List.range drumPartCount).map fun inst => computePartBits ops p numSteps inst x y

/-- `PatternGeneratorWrapper::DetectPatternChange`
(src/pattern_generator_wrapper.cpp lines 385-419): recompute the step
bitmasks for the provider's current x/y, compare against the previous
snapshot on parts that have at least one mapping, and on any difference
publish the new snapshot and raise the changed flag. -/
def detectPatternChange (s : WrapperState P) : WrapperState P :=
  let x := ops.getX s.provider
  let y := ops.getY s.provider
  let bits := computePatternBits ops s.provider s.numSteps x y
  let changed := (List.range drumPartCount).any fun i =>
    s.mappings.any (fun m => m.drumPart = i) &&
      bits.getD i 0 != s.prevPatternBits.getD i 0
  if changed then
    { s with
      prevPatternBits := bits, pendingPatternBits := bits,
      pendingPatternX := x, pendingPatternY := y, patternChanged := true }
  else s

end PatternBits

/-- Events recorded by the per-pulse body of
`PatternGeneratorWrapper::Process`, in the positions where the source
performs the corresponding calls: the LFO coordinate update (lines
249-267), `DetectPatternChange` (line 268), the external
`TickClock(1)` (line 272) and the `ProcessTriggers` dispatch pass
(line 284). -/
inductive PulseEvent where
  | lfoUpdate
  | detectChange
  | externalTick
  | dispatch
deriving Repr, DecidableEq

section WrapperProcess

variable {P : Type} (ops : ProviderOps P) (cosF sinF : ℚ → ℚ) (piQ : ℚ)
variable (lfoMapStep : ℕ → SampleMapping → SampleMapping)
variable (avgXY : List SampleMapping → ℕ × ℕ)

/-- The per-pulse body of `PatternGeneratorWrapper::Process`
(src/pattern_generator_wrapper.cpp lines 245-288), entered after the
pulse-clock decrement.  The per-mapping floating-point sine/phase update
of lines 252-260 is abstracted as `lfoMapStep framesPerPulse` and the
uint8-cast float average of the updated coordinates (lines 250,
261-265) as `avgXY`; both are uninterpreted, as no claim depends on
their values.  Alongside the new state, the list of events performed on
this pulse is returned in execution order. -/
def pulseStep (s : WrapperState P) : WrapperState P × List PulseEvent :=
  let lfoRan : Bool := s.lfoEnabled && !s.mappings.isEmpty
  let s1 :=
    if lfoRan then
      let ms1 := s.mappings.map (lfoMapStep s.framesPerPulse)
      let a := avgXY ms1
      let prov1 := ops.setY (ops.setX s.provider a.1) a.2
      detectPatternChange ops { s with mappings := ms1, provider := prov1 }
    else s
  let prov2 := ops.tickClock s1.provider
  let prov3 :=
    if s1.numSteps < kStepsPerPattern ∧ s1.numSteps ≤ ops.stepIdx prov2 then
      ops.setStep prov2 0
    else prov2
  let stBits := ops.stateBits prov3
  let r := processTriggersW cosF sinF piQ stBits s1.mappings
    { humanizeMaxFrames := s1.humanizeMaxFrames,
      pending := s1.pendingTriggers,
      rngState := s1.humanizeRngState, player := s1.player }
  let s2 :=
    { s1 with
      mappings := r.1, pendingTriggers := r.2.pending,
      humanizeRngState := r.2.rngState, player := r.2.player,
      provider := ops.incPulseCounter prov3 }
  (s2, (if lfoRan then [PulseEvent.lfoUpdate, PulseEvent.detectChange] else [])
    ++ [PulseEvent.externalTick, PulseEvent.dispatch])

/-- The per-frame pending-trigger phase of
`PatternGeneratorWrapper::Process` (src/pattern_generator_wrapper.cpp
lines 237-240): run `ProcessPendingTriggers` when the jitter window is
positive. -/
def pendingPhase (s : WrapperState P) : WrapperState P :=
  if 0 < s.humanizeMaxFrames then
    let r := processPendingTriggers cosF sinF piQ s.pendingTriggers s.player
    { s with pendingTriggers := r.1, player := r.2 }
  else s

/-- One iteration of the frame loop of `PatternGeneratorWrapper::Process`
(src/pattern_generator_wrapper.cpp lines 236-289): process pending
humanized triggers when the jitter window is positive, advance the pulse
clock by one frame and, on reaching `framesPerPulse`, run the pulse
body. -/
def frameStep (s : WrapperState P) : WrapperState P × List PulseEvent :=
  let s0 := pendingPhase cosF sinF piQ s
  let acc := s0.framesSinceLastTick + 1
  if s0.framesPerPulse ≤ acc then
    pulseStep ops cosF sinF piQ lfoMapStep avgXY
      { s0 with framesSinceLastTick := acc - s0.framesPerPulse }
  else
    ({ s0 with framesSinceLastTick := acc }, [])

/-- `PatternGeneratorWrapper::Process` (src/pattern_generator_wrapper.cpp
lines 231-290): the frame loop, also accumulating the pulse events of
every frame in order. -/
def processW (s : WrapperState P) : ℕ → WrapperState P × List PulseEvent
  | 0 => (s, [])
  | n + 1 =>
    let r1 := frameStep ops cosF sinF piQ lfoMapStep avgXY s
    let r2 := processW r1.1 n
    (r2.1, r1.2 ++ r2.2)

end WrapperProcess

/-- Swap of two vector entries, `std::swap(shuffled[i], shuffled[j])` in
src/pattern_generator_wrapper.cpp line 111. -/
def listSwap {α : Type} [Inhabited α] (l : List α) (i j : ℕ) : List α :=
  (l.set i (l.getD j default)).set j (l.getD i default)

/-- Starting index of the Fisher-Yates loop in `AssignSamplesToParts`
(src/pattern_generator_wrapper.cpp line 109): `shuffled.size() - 1`
computed in `size_t` arithmetic, which wraps to `2^64 - 1` for an empty
vector. -/
def shuffleStart (len : ℕ) : ℕ := (len + (sizeTMod - 1)) % sizeTMod

/-- The shuffle loop of `AssignSamplesToParts`
(src/pattern_generator_wrapper.cpp lines 109-112), counting `i` down
while `i > 0`: draw `j = rand() % (i + 1)` (the divisor computed in
`size_t` arithmetic — C evaluates `rand() % 0` as undefined behaviour,
which this total model renders as the Lean convention `x % 0 = x`) and
swap entries `i` and `j`.  `randAt t` is the result of the (t+1)-th
`rand()` call; the second component returned is the next call index. -/
def shuffleGo (randAt : ℕ → ℕ) : ℕ → List ℕ → ℕ → List ℕ × ℕ
  | 0, l, t => (l, t)
  | i + 1, l, t =>
    let j := randAt t % ((i + 2) % sizeTMod)
    shuffleGo randAt i (listSwap l (i + 1) j) (t + 1)

/-- The full Fisher-Yates shuffle of `AssignSamplesToParts`
(src/pattern_generator_wrapper.cpp lines 107-112). -/
def fisherYates (randAt : ℕ → ℕ) (l : List ℕ) : List ℕ × ℕ :=
  shuffleGo randAt (shuffleStart l.length) l 0

/-- The sequence of divisors `i + 1` appearing in `rand() % (i + 1)`
over the iterations of the shuffle loop
(src/pattern_generator_wrapper.cpp lines 109-112), in execution order,
each reduced in `size_t` arithmetic exactly as the loop computes it. -/
def shuffleDivisorsGo : ℕ → List ℕ
  | 0 => []
  | i + 1 => ((i + 2) % sizeTMod) :: shuffleDivisorsGo i

/-- The shuffle-loop divisors for an input list of length `len`. -/
def shuffleDivisors (len : ℕ) : List ℕ := shuffleDivisorsGo (shuffleStart len)

/-- The mapping-construction loop of `AssignSamplesToParts`
(src/pattern_generator_wrapper.cpp lines 119-152): for each selected
note, draw the drum part, the x/y coordinates, the `numVelocitySteps`
velocity-pattern entries, the two LFO periods and the two LFO phases from
successive `rand()` calls, in the source's call order.  The float
M_PI becomes the parameter `piQ`. -/
def buildMappings (randAt : ℕ → ℕ) (piQ : ℚ)
    (sampleRate numVelocitySteps : ℕ) : List ℕ → ℕ → List SampleMapping
  | [], _ => []
  | note :: rest, t =>
    let drumPart := randAt t % drumPartCount
    let x := randAt (t + 1) % 256
    let y := randAt (t + 2) % 256
    let pattern := (List.range numVelocitySteps).map fun k => randAt (t + 3 + k) % 2
    let t1 := t + 3 + numVelocitySteps
    let xPeriod : ℚ := 15 + ((randAt t1 % 3001 : ℕ) : ℚ) / 100
    let yPeriod : ℚ := 15 + ((randAt (t1 + 1) % 3001 : ℕ) : ℚ) / 100
    let mapping : SampleMapping :=
      { midiNote := note, drumPart := drumPart, x := x, y := y,
        velocityPattern := pattern, velocityStep := 0, pan := 0,
        lfoXFreq := 2 * piQ / (xPeriod * (sampleRate : ℚ)),
        lfoYFreq := 2 * piQ / (yPeriod * (sampleRate : ℚ)),
        lfoXPhase := ((randAt (t1 + 2) % 10000 : ℕ) : ℚ) / 10000 * 2 * piQ,
        lfoYPhase := ((randAt (t1 + 3) % 10000 : ℕ) : ℚ) / 10000 * 2 * piQ }
    mapping :: buildMappings randAt piQ sampleRate numVelocitySteps rest (t1 + 4)

/-- `PatternGeneratorWrapper::AssignSamplesToParts`
(src/pattern_generator_wrapper.cpp lines 96-153): clamp the wrap length
`num_steps_` into [1, 32], shuffle the note list, keep the first
`min(size, numParts)` notes and build one mapping per kept note.
Returns the new mapping list together with the new `num_steps_`. -/
def assignSamplesToParts (randAt : ℕ → ℕ) (piQ : ℚ) (sampleRate : ℕ)
    (midiNotes : List ℕ) (numParts numVelocitySteps : ℕ) :
    List SampleMapping × ℕ :=
  let ns0 := if 32 < numVelocitySteps then 32 else numVelocitySteps
  let numSteps := if ns0 < 1 then 1 else ns0
  let numSamples := min midiNotes.length numParts
  let sh := fisherYates randAt midiNotes
  let selected := sh.1.take numSamples
  (buildMappings randAt piQ sampleRate numVelocitySteps selected sh.2, numSteps)

/-- The sequence of pulse events a single elapsed pulse produces: with
the LFO block active (LFO enabled and at least one mapping) the LFO
update and the change detection run first, then the external tick and
the dispatch pass; otherwise only the tick and the dispatch. -/
def pulseBlock (lfoRan : Bool) : List PulseEvent :=
  (if lfoRan then [PulseEvent.lfoUpdate, PulseEvent.detectChange] else [])
    ++ [PulseEvent.externalTick, PulseEvent.dispatch]

/-! Concrete instances used to witness the theorems below. -/

/-- A stand-in for the abstracted float functions (`cosf`, `sinf`). -/
def constZero : ℚ → ℚ := fun _ => 0

/-- A trivial provider over the unit state, for concrete instantiation. -/
def trivialOps : ProviderOps Unit :=
  { tickClock := id, stepIdx := fun _ => 0, setStep := fun p _ => p,
    stateBits := fun _ => 1, incPulseCounter := id,
    getX := fun _ => 0, getY := fun _ => 0,
    setX := fun p _ => p, setY := fun p _ => p,
    density := fun _ _ => 0, getDrumMapLevel := fun _ _ _ _ _ => 0 }

/-- A trivial stand-in for the abstracted per-mapping LFO update. -/
def lfoIdentity : ℕ → SampleMapping → SampleMapping := fun _ m => m

/-- A trivial stand-in for the abstracted coordinate average. -/
def avgZero : List SampleMapping → ℕ × ℕ := fun _ => (0, 0)

/-- A bank holding one single-frame sample at note 60. -/
def demoBank : SampleLookup := fun n => if n = 60 then some ⟨[0], 1⟩ else none

/-- A bank with no samples at all. -/
def emptyBank : SampleLookup := fun _ => none

/-- A mapping of note 60 to drum part 0 with velocity pattern [1, 0]. -/
def demoMapping : SampleMapping :=
  { midiNote := 60, drumPart := 0, x := 0, y := 0, velocityPattern := [1, 0],
    velocityStep := 0, pan := 0, lfoXPhase := 0, lfoYPhase := 0,
    lfoXFreq := 0, lfoYFreq := 0 }

/-- An idle pending-trigger slot. -/
def idleSlot : PendingTrigger :=
  { midiNote := 0, velocity := 0, pan := 0, delayFrames := 0, active := false }

/-- An occupied pending-trigger slot. -/
def busySlot : PendingTrigger :=
  { midiNote := 60, velocity := 1, pan := 0, delayFrames := 5, active := true }

/-- A freshly initialized wrapper over the trivial provider: zero
accumulated phase, 48 kHz, 120 BPM, LFO off, no mappings, humanize off. -/
def demoWrapper : WrapperState Unit :=
  { player := initPlayer demoBank 48000, sampleRate := 48000, bpm := 120,
    lfoEnabled := false, numSteps := 32, framesSinceLastTick := 0,
    framesPerPulse := updateFramesPerPulse 48000 120, mappings := [],
    prevPatternBits := [0xFFFFFFFF, 0xFFFFFFFF, 0xFFFFFFFF],
    pendingPatternBits := [0, 0, 0],
    pendingPatternX := 0, pendingPatternY := 0, patternChanged := false,
    humanizeAmount := 0, humanizeMaxFrames := 0,
    pendingTriggers := List.replicate kMaxPendingTriggers idleSlot,
    humanizeRngState := 0, provider := () }

/-- A routing state with humanize disabled and an empty pending table. -/
def demoDest : TrigDest :=
  { humanizeMaxFrames := 0, pending := List.replicate kMaxPendingTriggers idleSlot,
    rngState := 0, player := initPlayer demoBank 48000 }

/-- One `Trigger(60, 1.0, 0.0)` call on the demo bank, with the
abstracted trig functions instantiated to the zero function (the voice
counters never depend on the pan gains). -/
def demoTrig (s : PlayerState) : PlayerState := trigger constZero constZero 0 s 60 1 0

/-- Iterated `Trigger` calls. -/
def iterTrigger : ℕ → PlayerState → PlayerState
  | 0, s => s
  | n + 1, s => iterTrigger n (demoTrig s)

/-- The player after 256 triggers from a fresh `Init`: every voice slot
active, active-voice count 256. -/
def playerFull : PlayerState := iterTrigger kMaxVoices (initPlayer demoBank 48000)

/-- The player after a further one-frame `Process`: every voice plays its
single remaining frame and is reset, yet the recomputed count stays
256. -/
def playerDrained : PlayerState := (process playerFull 1).1

/-- The player after one more `Trigger`: the targeted slot is inactive,
so the count is incremented past the pool capacity. -/
def playerOver : PlayerState := demoTrig playerDrained

/-- The structural invariant of the voice pool under `Trigger`-only call
sequences: the pool has exactly `kMaxVoices` slots, the round-robin
cursor is in range, and the reported count equals the number of active
slots. -/
def playerInv (s : PlayerState) : Prop :=
  s.voicePool.length = kMaxVoices ∧ s.nextVoiceIndex < kMaxVoices
    ∧ s.activeVoiceCount = s.voicePool.countP (fun v => v.active)

/-- Player states reachable from `Init` by `Trigger` calls alone. -/
inductive ReachTrig (cF sF : ℚ → ℚ) (piQ : ℚ) : PlayerState → Prop
  | init (bank : SampleLookup) (sampleRate : ℕ) :
      ReachTrig cF sF piQ (initPlayer bank sampleRate)
  | trig {s : PlayerState} (note : ℕ) (vel pan : ℚ) :
      ReachTrig cF sF piQ s → ReachTrig cF sF piQ (trigger cF sF piQ s note vel pan)

/-- Player states reachable from `Init` by any sequence of `Trigger`,
`Process` and `ProcessStereo` calls. -/
inductive ReachPlayer (cF sF : ℚ → ℚ) (piQ : ℚ) : PlayerState → Prop
  | init (bank : SampleLookup) (sampleRate : ℕ) :
      ReachPlayer cF sF piQ (initPlayer bank sampleRate)
  | trig {s : PlayerState} (note : ℕ) (vel pan : ℚ) :
      ReachPlayer cF sF piQ s → ReachPlayer cF sF piQ (trigger cF sF piQ s note vel pan)
  | proc {s : PlayerState} (numFrames : ℕ) :
      ReachPlayer cF sF piQ s → ReachPlayer cF sF piQ (process s numFrames).1
  | procStereo {s : PlayerState} (numFrames : ℕ) :
      ReachPlayer cF sF piQ s → ReachPlayer cF sF piQ (processStereo s numFrames).1

/-! Theorems. -/

theorem countP_set_add {α : Type} (p : α → Bool) (d : α) :
    ∀ (l : List α) (i : ℕ), i < l.length → ∀ v : α,
      (l.set i v).countP p + (if p (l.getD i d) then 1 else 0)
        = l.countP p + (if p v then 1 else 0) := by
  intro l
  induction l with
  | nil => intro i hi; simp at hi
  | cons a l ih =>
    intro i hi v
    cases i with
    | zero =>
      simp only [List.set_cons_zero, List.countP_cons, List.getD_cons_zero]
      omega
    | succ i =>
      have hi' : i < l.length := by simpa using hi
      have := ih i hi' v
      simp only [List.set_cons_succ, List.countP_cons, List.getD_cons_succ]
      omega

theorem countP_replicate {α : Type} (p : α → Bool) (a : α) :
    ∀ n : ℕ, (List.replicate n a).countP p = if p a then n else 0 := by
  intro n
  induction n with
  | zero => simp
  | succ n ih =>
    simp only [List.replicate_succ, List.countP_cons, ih]
    by_cases h : p a <;> simp [h]

theorem countP_after_active_set (pool : List Voice) (i : ℕ)
    (hi : i < pool.length) (v : Voice) (hv : v.active = true) :
    (pool.set i v).countP (fun w => w.active)
      = if (pool.getD i voiceReset).active then pool.countP (fun w => w.active)
        else pool.countP (fun w => w.active) + 1 := by
  have hkey := countP_set_add (fun w => w.active) voiceReset pool i hi v
  by_cases hw : (pool.getD i voiceReset).active <;>
    simp [hw, hv, -List.getD_eq_getElem?_getD] at hkey ⊢ <;> omega

theorem trigger_preserves_playerInv (cF sF : ℚ → ℚ) (piQ : ℚ)
    (s : PlayerState) (note : ℕ) (vel pan : ℚ) (h : playerInv s) :
    playerInv (trigger cF sF piQ s note vel pan) := by
  obtain ⟨hlen, hidx, hcnt⟩ := h
  unfold trigger
  split
  · exact ⟨hlen, hidx, hcnt⟩
  · split
    · exact ⟨hlen, hidx, hcnt⟩
    · split
      · exact ⟨hlen, hidx, hcnt⟩
      · have hisp : s.nextVoiceIndex < s.voicePool.length := by omega
        refine ⟨by simpa using hlen,
          Nat.mod_lt _ (by norm_num [kMaxVoices]), ?_⟩
        rw [countP_after_active_set s.voicePool s.nextVoiceIndex hisp _ rfl]
        by_cases hw : (s.voicePool.getD s.nextVoiceIndex voiceReset).active <;>
          simp [hw, hcnt]

theorem reachTrig_playerInv (cF sF : ℚ → ℚ) (piQ : ℚ) (s : PlayerState)
    (h : ReachTrig cF sF piQ s) : playerInv s := by
  induction h with
  | init bank sr =>
    refine ⟨by simp [initPlayer], by norm_num [initPlayer, kMaxVoices], ?_⟩
    simp [initPlayer, countP_replicate, voiceReset]
  | trig note vel pan _ ih => exact trigger_preserves_playerInv _ _ _ _ _ _ _ ih

/-- C4 (amended): for every sequence of Trigger calls after Init — with
no Process or ProcessStereo interleaved — the reported active-voice count
is at most the pool capacity kMaxVoices = 256. -/
theorem active_voice_count_le_capacity (cF sF : ℚ → ℚ) (piQ : ℚ)
    (s : PlayerState) (h : ReachTrig cF sF piQ s) :
    s.activeVoiceCount ≤ kMaxVoices := by
  obtain ⟨hlen, _, hcnt⟩ := reachTrig_playerInv cF sF piQ s h
  rw [hcnt, ← hlen]
  exact List.countP_le_length _

/-- Witness for C4 (amended): a freshly initialized player satisfies the
bound. -/
theorem active_voice_count_le_capacity_w :
    (initPlayer demoBank 48000).activeVoiceCount ≤ kMaxVoices :=
  active_voice_count_le_capacity constZero constZero 0 _
    (ReachTrig.init demoBank 48000)

theorem reachPlayer_iterTrigger (n : ℕ) (s : PlayerState)
    (h : ReachPlayer constZero constZero 0 s) :
    ReachPlayer constZero constZero 0 (iterTrigger n s) := by
  induction n generalizing s with
  | zero => exact h
  | succ n ih => exact ih _ (ReachPlayer.trig 60 1 0 h)

set_option maxRecDepth 1000000 in
/-- Counterexample to C4 as stated: triggering all 256 voices, draining
them with a one-frame Process (which leaves the recomputed count at 256
while resetting every voice to inactive), and then triggering once more
yields a reachable state whose reported active-voice count is 257,
exceeding the pool capacity. -/
theorem active_voice_count_over_capacity_cex :
    ReachPlayer constZero constZero 0 playerOver
      ∧ ¬ playerOver.activeVoiceCount ≤ kMaxVoices := by
  constructor
  · have h0 : ReachPlayer constZero constZero 0 (initPlayer demoBank 48000) :=
      ReachPlayer.init demoBank 48000
    have h1 := reachPlayer_iterTrigger kMaxVoices _ h0
    have h2 : ReachPlayer constZero constZero 0 playerDrained :=
      ReachPlayer.proc 1 h1
    exact ReachPlayer.trig 60 1 0 h2
  · decide

theorem getD_map_of_lt {α β : Type} (f : α → β) (l : List α) (i : ℕ)
    (hi : i < l.length) (d : α) (e : β) :
    (l.map f).getD i e = f (l.getD i d) := by
  rw [List.getD_eq_getElem (l.map f) e (by simpa using hi),
    List.getD_eq_getElem l d hi]
  simp

theorem stepCursor_drumPart (m : SampleMapping) :
    (stepCursor m).drumPart = m.drumPart := rfl

theorem dispatchPart_fst (part : ℕ) (ms : List SampleMapping) :
    (dispatchPart part ms).1
      = ms.map (fun m => if m.drumPart = part then stepCursor m else m) := by
  induction ms with
  | nil => rfl
  | cons m rest ih =>
    by_cases h : m.drumPart = part <;> simp [dispatchPart, h, ih]

theorem dispatchPart_snd (part : ℕ) (ms : List SampleMapping) :
    (dispatchPart part ms).2
      = (ms.filter (fun m => m.drumPart = part)).map
          (fun m =>
            (m.midiNote, if evaluateVelocityPattern m then (1 : ℚ) else 1 / 10,
              m.pan)) := by
  induction ms with
  | nil => rfl
  | cons m rest ih =>
    by_cases h : m.drumPart = part <;>
      simp [dispatchPart, h, ih, List.filter_cons]

theorem dispatchLoop_fst_map (stBits : ℕ) (parts : List ℕ)
    (hnd : parts.Nodup) (ms : List SampleMapping) :
    (dispatchLoop stBits parts ms).1
      = ms.map (fun m =>
          if m.drumPart ∈ parts ∧ stBits.testBit m.drumPart
          then stepCursor m else m) := by
  induction parts generalizing ms with
  | nil => simp [dispatchLoop]
  | cons p ps ih =>
    obtain ⟨hp, hnd'⟩ := List.nodup_cons.mp hnd
    by_cases hb : stBits.testBit p
    · have hfun : ∀ m : SampleMapping,
          (if (if m.drumPart = p then stepCursor m else m).drumPart ∈ ps
                ∧ stBits.testBit
                    (if m.drumPart = p then stepCursor m else m).drumPart
            then stepCursor (if m.drumPart = p then stepCursor m else m)
            else (if m.drumPart = p then stepCursor m else m))
          = if m.drumPart ∈ p :: ps ∧ stBits.testBit m.drumPart
            then stepCursor m else m := by
        intro m
        by_cases hdp : m.drumPart = p
        · simp [hdp, hb, hp, stepCursor_drumPart]
        · simp [hdp, List.mem_cons]
      simp only [dispatchLoop, hb, if_true, dispatchPart_fst]
      rw [ih hnd', List.map_map]
      exact List.map_congr_left fun a _ => hfun a
    · have hfun : ∀ m : SampleMapping,
          (if m.drumPart ∈ ps ∧ stBits.testBit m.drumPart
            then stepCursor m else m)
          = if m.drumPart ∈ p :: ps ∧ stBits.testBit m.drumPart
            then stepCursor m else m := by
        intro m
        by_cases hdp : m.drumPart = p
        · simp [hdp, hb]
        · simp [hdp, List.mem_cons]
      simp only [dispatchLoop, hb, Bool.false_eq_true, if_false]
      rw [ih hnd']
      exact List.map_congr_left fun a _ => hfun a

theorem dispatchLoop_fst_getD (stBits : ℕ) (parts : List ℕ)
    (hnd : parts.Nodup) (ms : List SampleMapping) (i : ℕ)
    (hi : i < ms.length) :
    (dispatchLoop stBits parts ms).1.getD i default
      = if (ms.getD i default).drumPart ∈ parts
            ∧ stBits.testBit (ms.getD i default).drumPart
        then stepCursor (ms.getD i default) else ms.getD i default := by
  rw [dispatchLoop_fst_map stBits parts hnd ms,
    getD_map_of_lt _ _ i hi default default]

theorem dispatchLoop_snd_mem (stBits : ℕ) (parts : List ℕ)
    (ms : List SampleMapping) (m : SampleMapping) (hm : m ∈ ms)
    (hp : m.drumPart ∈ parts) (hb : stBits.testBit m.drumPart = true) :
    (m.midiNote, if evaluateVelocityPattern m then (1 : ℚ) else 1 / 10, m.pan)
      ∈ (dispatchLoop stBits parts ms).2 := by
  induction parts generalizing ms with
  | nil => simp at hp
  | cons p ps ih =>
    by_cases hdp : m.drumPart = p
    · have hbp : stBits.testBit p := hdp ▸ hb
      simp only [dispatchLoop, hbp, if_true]
      apply List.mem_append_left
      rw [dispatchPart_snd]
      exact List.mem_map_of_mem _ (List.mem_filter.mpr ⟨hm, by simp [hdp]⟩)
    · have hp' : m.drumPart ∈ ps := by
        rcases List.mem_cons.mp hp with h | h
        · exact absurd h hdp
        · exact h
      by_cases hbp : stBits.testBit p
      · simp only [dispatchLoop, hbp, if_true]
        apply List.mem_append_right
        apply ih _ ?_ hp'
        rw [dispatchPart_fst]
        exact List.mem_map.mpr ⟨m, hm, by simp [hdp]⟩
      · simp only [dispatchLoop, hbp, if_false]
        exact ih ms hm hp'

/-- C3: on a pulse whose trigger bitmask fires a mapping's drum part, the
dispatched velocity is 1.0 when the mapping's velocity sequence at its
own cursor is non-zero and 0.1 when it is zero, and that mapping's cursor
advances by exactly one position modulo its sequence length; a mapping
whose part does not fire is left completely unchanged. -/
theorem velocity_dispatch_per_mapping (stBits : ℕ) (ms : List SampleMapping)
    (i : ℕ) (m : SampleMapping) (hi : i < ms.length)
    (hm : ms.getD i default = m) (hne : m.velocityPattern ≠ []) :
    (m.drumPart < drumPartCount → stBits.testBit m.drumPart = true →
      ((dispatchEmit stBits ms).1.getD i default).velocityStep
          = (m.velocityStep + 1) % m.velocityPattern.length
        ∧ (m.midiNote,
            if m.velocityPattern.getD m.velocityStep 0 ≠ 0 then (1 : ℚ)
              else 1 / 10,
            m.pan) ∈ (dispatchEmit stBits ms).2)
    ∧ (¬ (m.drumPart < drumPartCount ∧ stBits.testBit m.drumPart = true) →
        (dispatchEmit stBits ms).1.getD i default = m) := by
  have hfst := dispatchLoop_fst_getD stBits (List.range drumPartCount)
    (List.nodup_range _) ms i hi
  rw [hm] at hfst
  have hmem : m ∈ ms := by
    rw [← hm, List.getD_eq_getElem ms default hi]
    exact List.getElem_mem hi
  constructor
  · intro hlt hbit
    constructor
    · simp only [dispatchEmit]
      rw [hfst, if_pos ⟨List.mem_range.mpr hlt, hbit⟩]
      rfl
    · have hx := dispatchLoop_snd_mem stBits (List.range drumPartCount) ms m
        hmem (List.mem_range.mpr hlt) hbit
      have hv : (if evaluateVelocityPattern m then (1 : ℚ) else 1 / 10)
          = if m.velocityPattern.getD m.velocityStep 0 ≠ 0 then (1 : ℚ)
            else 1 / 10 := by
        simp [evaluateVelocityPattern, bne_iff_ne]
      rw [hv] at hx
      exact hx
  · intro hnot
    simp only [dispatchEmit]
    rw [hfst, if_neg]
    intro hc
    exact hnot ⟨List.mem_range.mp hc.1, hc.2⟩

/-- Witness for C3: the demo mapping (part 0, pattern [1, 0], cursor 0)
fires on bitmask 1 with velocity 1.0 and its cursor advances to 1 mod
2. -/
theorem velocity_dispatch_per_mapping_w :
    ((dispatchEmit 1 [demoMapping]).1.getD 0 default).velocityStep
        = (demoMapping.velocityStep + 1) % demoMapping.velocityPattern.length
      ∧ (demoMapping.midiNote,
          if demoMapping.velocityPattern.getD demoMapping.velocityStep 0 ≠ 0
            then (1 : ℚ) else 1 / 10,
          demoMapping.pan) ∈ (dispatchEmit 1 [demoMapping]).2 :=
  (velocity_dispatch_per_mapping 1 [demoMapping] 0 demoMapping (by decide)
    rfl (by decide)).1 (by decide) (by decide)

theorem isEmpty_of_length_eq {α β : Type} (l1 : List α) (l2 : List β)
    (h : l1.length = l2.length) : l1.isEmpty = l2.isEmpty := by
  cases l1 <;> cases l2 <;> simp_all

section ClockTheorems

variable {P : Type} (ops : ProviderOps P) (cosF sinF : ℚ → ℚ) (piQ : ℚ)
variable (lfoMapStep : ℕ → SampleMapping → SampleMapping)
variable (avgXY : List SampleMapping → ℕ × ℕ)

theorem detect_framesPerPulse (s : WrapperState P) :
    (detectPatternChange ops s).framesPerPulse = s.framesPerPulse := by
  simp only [detectPatternChange]
  split <;> rfl

theorem detect_lfoEnabled (s : WrapperState P) :
    (detectPatternChange ops s).lfoEnabled = s.lfoEnabled := by
  simp only [detectPatternChange]
  split <;> rfl

theorem detect_mappings (s : WrapperState P) :
    (detectPatternChange ops s).mappings = s.mappings := by
  simp only [detectPatternChange]
  split <;> rfl

theorem detect_framesSinceLastTick (s : WrapperState P) :
    (detectPatternChange ops s).framesSinceLastTick
      = s.framesSinceLastTick := by
  simp only [detectPatternChange]
  split <;> rfl

theorem pendingPhase_framesPerPulse (s : WrapperState P) :
    (pendingPhase cosF sinF piQ s).framesPerPulse = s.framesPerPulse := by
  unfold pendingPhase
  split <;> rfl

theorem pendingPhase_lfoEnabled (s : WrapperState P) :
    (pendingPhase cosF sinF piQ s).lfoEnabled = s.lfoEnabled := by
  unfold pendingPhase
  split <;> rfl

theorem pendingPhase_mappings (s : WrapperState P) :
    (pendingPhase cosF sinF piQ s).mappings = s.mappings := by
  unfold pendingPhase
  split <;> rfl

theorem pendingPhase_framesSinceLastTick (s : WrapperState P) :
    (pendingPhase cosF sinF piQ s).framesSinceLastTick
      = s.framesSinceLastTick := by
  unfold pendingPhase
  split <;> rfl

theorem dispatchLoop_fst_length (stBits : ℕ) (parts : List ℕ)
    (ms : List SampleMapping) :
    (dispatchLoop stBits parts ms).1.length = ms.length := by
  induction parts generalizing ms with
  | nil => rfl
  | cons p ps ih =>
    by_cases hb : stBits.testBit p
    · simp [dispatchLoop, hb, dispatchPart_fst, ih]
    · simp [dispatchLoop, hb, ih]

theorem pulseStep_fields (s : WrapperState P) :
    (pulseStep ops cosF sinF piQ lfoMapStep avgXY s).1.framesPerPulse
        = s.framesPerPulse
    ∧ (pulseStep ops cosF sinF piQ lfoMapStep avgXY s).1.lfoEnabled
        = s.lfoEnabled
    ∧ (pulseStep ops cosF sinF piQ lfoMapStep avgXY s).1.mappings.length
        = s.mappings.length
    ∧ (pulseStep ops cosF sinF piQ lfoMapStep avgXY s).1.framesSinceLastTick
        = s.framesSinceLastTick
    ∧ (pulseStep ops cosF sinF piQ lfoMapStep avgXY s).2
        = pulseBlock (s.lfoEnabled && !s.mappings.isEmpty) := by
  unfold pulseStep
  by_cases hl : (s.lfoEnabled && !s.mappings.isEmpty) = true <;>
    simp [hl, pulseBlock, processTriggersW, dispatchEmit,
      dispatchLoop_fst_length, detect_framesPerPulse, detect_lfoEnabled,
      detect_mappings, detect_framesSinceLastTick]

theorem frameStep_spec (s : WrapperState P)
    (hacc : s.framesSinceLastTick < s.framesPerPulse) :
    (frameStep ops cosF sinF piQ lfoMapStep avgXY s).1.framesPerPulse
        = s.framesPerPulse
    ∧ (frameStep ops cosF sinF piQ lfoMapStep avgXY s).1.lfoEnabled
        = s.lfoEnabled
    ∧ (frameStep ops cosF sinF piQ lfoMapStep avgXY s).1.mappings.length
        = s.mappings.length
    ∧ (frameStep ops cosF sinF piQ lfoMapStep avgXY s).1.framesSinceLastTick
        = (s.framesSinceLastTick + 1) % s.framesPerPulse
    ∧ (frameStep ops cosF sinF piQ lfoMapStep avgXY s).2
        = (if s.framesSinceLastTick + 1 = s.framesPerPulse
           then pulseBlock (s.lfoEnabled && !s.mappings.isEmpty) else []) := by
  simp only [frameStep, pendingPhase_framesPerPulse,
    pendingPhase_framesSinceLastTick]
  by_cases hp : s.framesPerPulse ≤ s.framesSinceLastTick + 1
  · have heq : s.framesSinceLastTick + 1 = s.framesPerPulse := by omega
    rw [if_pos hp]
    have hflag : ((pendingPhase cosF sinF piQ s).lfoEnabled
          && !(pendingPhase cosF sinF piQ s).mappings.isEmpty)
        = (s.lfoEnabled && !s.mappings.isEmpty) := by
      rw [pendingPhase_lfoEnabled, pendingPhase_mappings]
    have hz : s.framesSinceLastTick + 1 - s.framesPerPulse
        = (s.framesSinceLastTick + 1) % s.framesPerPulse := by
      rw [heq, Nat.sub_self, Nat.mod_self]
    refine ⟨?_, ?_, ?_, ?_, ?_⟩
    · rw [(pulseStep_fields ops cosF sinF piQ lfoMapStep avgXY _).1]
    · rw [(pulseStep_fields ops cosF sinF piQ lfoMapStep avgXY _).2.1]
      exact pendingPhase_lfoEnabled cosF sinF piQ s
    · rw [(pulseStep_fields ops cosF sinF piQ lfoMapStep avgXY _).2.2.1]
      exact congrArg List.length (pendingPhase_mappings cosF sinF piQ s)
    · rw [(pulseStep_fields ops cosF sinF piQ lfoMapStep avgXY _).2.2.2.1]
      exact hz
    · rw [(pulseStep_fields ops cosF sinF piQ lfoMapStep avgXY _).2.2.2.2,
        if_pos heq]
      exact congrArg pulseBlock hflag
  · have hne : ¬ s.framesSinceLastTick + 1 = s.framesPerPulse := by omega
    rw [if_neg hp]
    refine ⟨rfl, ?_, ?_, ?_, ?_⟩
    · exact pendingPhase_lfoEnabled cosF sinF piQ s
    · exact congrArg List.length (pendingPhase_mappings cosF sinF piQ s)
    · exact (Nat.mod_eq_of_lt
        (show s.framesSinceLastTick + 1 < s.framesPerPulse by omega)).symm
    · rw [if_neg hne]

theorem processW_spec (s : WrapperState P) (n : ℕ)
    (hfpp : 0 < s.framesPerPulse)
    (hacc : s.framesSinceLastTick < s.framesPerPulse) :
    (processW ops cosF sinF piQ lfoMapStep avgXY s n).2
        = List.join (List.replicate
            ((s.framesSinceLastTick + n) / s.framesPerPulse)
            (pulseBlock (s.lfoEnabled && !s.mappings.isEmpty)))
    ∧ (processW ops cosF sinF piQ lfoMapStep avgXY s n).1.framesSinceLastTick
        = (s.framesSinceLastTick + n) % s.framesPerPulse := by
  induction n generalizing s with
  | zero =>
    constructor
    · simp [processW, Nat.div_eq_of_lt hacc]
    · simp [processW, Nat.mod_eq_of_lt hacc]
  | succ n ih =>
    obtain ⟨f1, f2, f3, f4, f5⟩ :=
      frameStep_spec ops cosF sinF piQ lfoMapStep avgXY s hacc
    have hfpp1 :
        0 < (frameStep ops cosF sinF piQ lfoMapStep avgXY s).1.framesPerPulse := by
      rw [f1]; exact hfpp
    have hacc1 :
        (frameStep ops cosF sinF piQ lfoMapStep avgXY s).1.framesSinceLastTick
          < (frameStep ops cosF sinF piQ lfoMapStep avgXY s).1.framesPerPulse := by
      rw [f1, f4]; exact Nat.mod_lt _ hfpp
    obtain ⟨ht, ha⟩ := ih _ hfpp1 hacc1
    have hflag1 :
        ((frameStep ops cosF sinF piQ lfoMapStep avgXY s).1.lfoEnabled
            && !(frameStep ops cosF sinF piQ lfoMapStep avgXY s).1.mappings.isEmpty)
          = (s.lfoEnabled && !s.mappings.isEmpty) := by
      rw [f2, isEmpty_of_length_eq _ _ f3]
    rw [f1, f4, hflag1] at ht
    rw [f1, f4] at ha
    constructor
    · show (frameStep ops cosF sinF piQ lfoMapStep avgXY s).2
          ++ (processW ops cosF sinF piQ lfoMapStep avgXY _ n).2 = _
      rw [f5, ht]
      by_cases hp : s.framesSinceLastTick + 1 = s.framesPerPulse
      · rw [if_pos hp, hp, Nat.mod_self]
        have h1 : s.framesSinceLastTick + (n + 1) = n + s.framesPerPulse := by
          omega
        have h2 : (0 + n) = n := by omega
        rw [h1, h2, Nat.add_div_right n hfpp, List.replicate_succ]
        rfl
      · rw [if_neg hp]
        have hlt : s.framesSinceLastTick + 1 < s.framesPerPulse := by omega
        have h1 : s.framesSinceLastTick + 1 + n
            = s.framesSinceLastTick + (n + 1) := by omega
        rw [Nat.mod_eq_of_lt hlt, h1, List.nil_append]
    · show (processW ops cosF sinF piQ lfoMapStep avgXY _ n).1.framesSinceLastTick = _
      rw [ha]
      by_cases hp : s.framesSinceLastTick + 1 = s.framesPerPulse
      · rw [hp, Nat.mod_self]
        have h1 : s.framesSinceLastTick + (n + 1) = n + s.framesPerPulse := by
          omega
        rw [h1, Nat.add_mod_right, Nat.zero_add]
      · have hlt : s.framesSinceLastTick + 1 < s.framesPerPulse := by omega
        have h1 : s.framesSinceLastTick + 1 + n
            = s.framesSinceLastTick + (n + 1) := by omega
        rw [Nat.mod_eq_of_lt hlt, h1]

end ClockTheorems

theorem count_join_replicate (e : PulseEvent) (b : List PulseEvent) (k : ℕ) :
    (List.join (List.replicate k b)).count e = k * b.count e := by
  induction k with
  | zero => simp
  | succ k ih =>
    simp only [List.replicate_succ, List.join_cons, List.count_append, ih,
      Nat.succ_mul]
    omega

theorem pulseBlock_count_tick (b : Bool) :
    (pulseBlock b).count PulseEvent.externalTick = 1 := by
  cases b <;> rfl

theorem pulseBlock_count_dispatch (b : Bool) :
    (pulseBlock b).count PulseEvent.dispatch = 1 := by
  cases b <;> rfl

theorem updateFramesPerPulse_48k_120 : updateFramesPerPulse 48000 120 = 1000 := by
  simp only [updateFramesPerPulse]
  norm_num
  decide

/-- C1: at sample rate 48000 and BPM 120 the clock's framesPerPulse is
48000/(120·24/60) = 1000, and from any engine state with zero accumulated
phase and that framesPerPulse, Process(1000) produces exactly one pulse
event (one external tick, one dispatch pass) ending with zero accumulated
frames, while Process(2500) produces exactly two pulse events leaving 500
frames accumulated toward the next pulse. -/
theorem clock_pulse_arithmetic {P : Type} (ops : ProviderOps P)
    (cosF sinF : ℚ → ℚ) (piQ : ℚ)
    (lfoMapStep : ℕ → SampleMapping → SampleMapping)
    (avgXY : List SampleMapping → ℕ × ℕ) (s : WrapperState P)
    (hfpp : s.framesPerPulse = updateFramesPerPulse 48000 120)
    (hacc : s.framesSinceLastTick = 0) :
    updateFramesPerPulse 48000 120 = 1000
    ∧ (processW ops cosF sinF piQ lfoMapStep avgXY s 1000).2.count
        PulseEvent.externalTick = 1
    ∧ (processW ops cosF sinF piQ lfoMapStep avgXY s 1000).2.count
        PulseEvent.dispatch = 1
    ∧ (processW ops cosF sinF piQ lfoMapStep avgXY s 1000).1.framesSinceLastTick
        = 0
    ∧ (processW ops cosF sinF piQ lfoMapStep avgXY s 2500).2.count
        PulseEvent.externalTick = 2
    ∧ (processW ops cosF sinF piQ lfoMapStep avgXY s 2500).2.count
        PulseEvent.dispatch = 2
    ∧ (processW ops cosF sinF piQ lfoMapStep avgXY s 2500).1.framesSinceLastTick
        = 500 := by
  have hf : s.framesPerPulse = 1000 := hfpp.trans updateFramesPerPulse_48k_120
  have hfpos : 0 < s.framesPerPulse := by omega
  have hacclt : s.framesSinceLastTick < s.framesPerPulse := by omega
  obtain ⟨t1, a1⟩ := processW_spec ops cosF sinF piQ lfoMapStep avgXY s 1000
    hfpos hacclt
  obtain ⟨t2, a2⟩ := processW_spec ops cosF sinF piQ lfoMapStep avgXY s 2500
    hfpos hacclt
  rw [hacc, hf] at t1 a1 t2 a2
  refine ⟨updateFramesPerPulse_48k_120, ?_, ?_, ?_, ?_, ?_, ?_⟩
  · rw [t1, count_join_replicate, pulseBlock_count_tick]
  · rw [t1, count_join_replicate, pulseBlock_count_dispatch]
  · rw [a1]
  · rw [t2, count_join_replicate, pulseBlock_count_tick]
  · rw [t2, count_join_replicate, pulseBlock_count_dispatch]
  · rw [a2]

/-- Witness for C1: the freshly initialized demo wrapper (48 kHz, 120
BPM, zero accumulated phase). -/
theorem clock_pulse_arithmetic_w :
    updateFramesPerPulse 48000 120 = 1000
    ∧ (processW trivialOps constZero constZero 0 lfoIdentity avgZero
        demoWrapper 1000).2.count PulseEvent.externalTick = 1
    ∧ (processW trivialOps constZero constZero 0 lfoIdentity avgZero
        demoWrapper 1000).2.count PulseEvent.dispatch = 1
    ∧ (processW trivialOps constZero constZero 0 lfoIdentity avgZero
        demoWrapper 1000).1.framesSinceLastTick = 0
    ∧ (processW trivialOps constZero constZero 0 lfoIdentity avgZero
        demoWrapper 2500).2.count PulseEvent.externalTick = 2
    ∧ (processW trivialOps constZero constZero 0 lfoIdentity avgZero
        demoWrapper 2500).2.count PulseEvent.dispatch = 2
    ∧ (processW trivialOps constZero constZero 0 lfoIdentity avgZero
        demoWrapper 2500).1.framesSinceLastTick = 500 :=
  clock_pulse_arithmetic trivialOps constZero constZero 0 lfoIdentity avgZero
    demoWrapper rfl rfl

/-- C7 (amended): the pulse events of Process form, per elapsed pulse and
in order, the block [lfoUpdate, detectChange, externalTick, dispatch]
when the LFO is enabled and at least one mapping exists, and the block
[externalTick, dispatch] otherwise — so the LFO update and the pattern
change detection run, in that order and before the external tick and the
dispatch, only on pulses where the LFO block is active; pulses are
processed in order even when several fall inside one buffer. -/
theorem pulse_event_order {P : Type} (ops : ProviderOps P)
    (cosF sinF : ℚ → ℚ) (piQ : ℚ)
    (lfoMapStep : ℕ → SampleMapping → SampleMapping)
    (avgXY : List SampleMapping → ℕ × ℕ) (s : WrapperState P) (n : ℕ)
    (hfpp : 0 < s.framesPerPulse)
    (hacc : s.framesSinceLastTick < s.framesPerPulse) :
    (processW ops cosF sinF piQ lfoMapStep avgXY s n).2
      = List.join (List.replicate
          ((s.framesSinceLastTick + n) / s.framesPerPulse)
          (pulseBlock (s.lfoEnabled && !s.mappings.isEmpty))) :=
  (processW_spec ops cosF sinF piQ lfoMapStep avgXY s n hfpp hacc).1

/-- Witness for C7 (amended): two frames at framesPerPulse 2 with the
LFO enabled and one mapping produce exactly one full pulse block. -/
theorem pulse_event_order_w :
    (processW trivialOps constZero constZero 0 lfoIdentity avgZero
        { demoWrapper with
          framesPerPulse := 2, lfoEnabled := true,
          mappings := [demoMapping] } 2).2
      = List.join (List.replicate 1 (pulseBlock true)) := by
  have h := pulse_event_order trivialOps constZero constZero 0 lfoIdentity
    avgZero
    { demoWrapper with
      framesPerPulse := 2, lfoEnabled := true, mappings := [demoMapping] }
    2 (by decide) (by decide)
  simpa using h

set_option maxRecDepth 10000 in
/-- Counterexample to C7 as stated: with the LFO disabled, an elapsed
pulse performs only the external tick and the dispatch pass — pattern
change detection does not run at all on that pulse, contradicting
"regardless of whether the LFO is enabled ... pattern change detection
runs once per elapsed pulse before the external tick". -/
theorem pulse_event_order_cex :
    (processW trivialOps constZero constZero 0 lfoIdentity avgZero
        { demoWrapper with framesPerPulse := 1 } 1).2
      = [PulseEvent.externalTick, PulseEvent.dispatch]
    ∧ PulseEvent.detectChange
        ∉ (processW trivialOps constZero constZero 0 lfoIdentity avgZero
            { demoWrapper with framesPerPulse := 1 } 1).2 :=
  ⟨by decide, by decide⟩

theorem getD_mapIdx_of_lt {α β : Type} [Inhabited α] [Inhabited β] :
    ∀ (l : List α) (f : ℕ → α → β) (i : ℕ), i < l.length →
      (l.mapIdx f).getD i default = f i (l.getD i default) := by
  intro l
  induction l with
  | nil => intro f i hi; simp at hi
  | cons a l ih =>
    intro f i hi
    rw [List.mapIdx_cons]
    cases i with
    | zero => simp
    | succ i =>
      simp only [List.getD_cons_succ]
      exact ih (fun j => f (j + 1)) i (by simpa using hi)

/-- C8: SetSpread(S) gives mapping i of n (0-based, n > 1) the pan
-S + 2S·i/(n-1); for n = 4 the pans are -S, -S/3, S/3, S in order; a
single mapping gets pan 0 regardless of S. -/
theorem spread_pan_formula :
    (∀ (S : ℚ) (ms : List SampleMapping), 1 < ms.length →
      ∀ i, i < ms.length →
        ((setSpread S ms).getD i default).pan
          = -S + 2 * S * (i : ℚ) / ((ms.length - 1 : ℕ) : ℚ))
    ∧ (∀ (S : ℚ) (m1 m2 m3 m4 : SampleMapping),
        (setSpread S [m1, m2, m3, m4]).map (fun m => m.pan)
          = [-S, -S / 3, S / 3, S])
    ∧ (∀ (S : ℚ) (m : SampleMapping),
        (setSpread S [m]).map (fun m => m.pan) = [0]) := by
  refine ⟨fun S ms hn i hi => ?_, fun S m1 m2 m3 m4 => ?_, fun S m => ?_⟩
  · rw [setSpread, if_neg (by omega), if_neg (by omega),
      getD_mapIdx_of_lt _ _ i hi]
  · simp only [setSpread]
    norm_num
    refine ⟨by ring, by ring, by ring⟩
  · simp [setSpread]

/-- Witness for C8: two mappings at spread 2, the second gets pan 2. -/
theorem spread_pan_formula_w :
    ((setSpread 2 [demoMapping, demoMapping]).getD 1 default).pan
      = -2 + 2 * 2 * ((1 : ℕ) : ℚ)
          / ((([demoMapping, demoMapping] : List SampleMapping).length - 1 : ℕ) : ℚ) :=
  spread_pan_formula.1 2 [demoMapping, demoMapping] (by decide) 1 (by decide)

theorem buildMappings_length (randAt : ℕ → ℕ) (piQ : ℚ)
    (sampleRate numVelocitySteps : ℕ) :
    ∀ (notes : List ℕ) (t : ℕ),
      ∀ m ∈ buildMappings randAt piQ sampleRate numVelocitySteps notes t,
        m.velocityPattern.length = numVelocitySteps := by
  intro notes
  induction notes with
  | nil => intro t m hm; simp [buildMappings] at hm
  | cons note rest ih =>
    intro t m hm
    simp only [buildMappings, List.mem_cons] at hm
    rcases hm with hm | hm
    · subst hm
      simp
    · exact ih _ m hm

/-- C9 (amended): for every call with a non-empty note list and
num_velocity_steps ≤ 32, each created mapping's velocity sequence has
length at most 32 (the sequence length is always exactly
num_velocity_steps: only the pattern wrap length num_steps_ is clamped
to 32, not the per-mapping sequence). -/
theorem assign_velocity_length_le (randAt : ℕ → ℕ) (piQ : ℚ)
    (sampleRate : ℕ) (midiNotes : List ℕ)
    (numParts numVelocitySteps : ℕ) (hne : midiNotes ≠ [])
    (hsteps : numVelocitySteps ≤ 32) :
    ∀ m ∈ (assignSamplesToParts randAt piQ sampleRate midiNotes numParts
        numVelocitySteps).1,
      m.velocityPattern.length ≤ 32 := by
  intro m hm
  simp only [assignSamplesToParts] at hm
  have := buildMappings_length randAt piQ sampleRate numVelocitySteps _ _ m hm
  omega

/-- Witness for C9 (amended): with two notes, two parts and 16 steps the
first created mapping's velocity sequence has length at most 32. -/
theorem assign_velocity_length_le_w :
    ((assignSamplesToParts (fun _ => 0) 0 48000 [60, 61] 2 16).1.getD 0
        default).velocityPattern.length ≤ 32 := by
  have hlen : (0 : ℕ)
      < (assignSamplesToParts (fun _ => 0) 0 48000 [60, 61] 2 16).1.length := by
    decide
  exact assign_velocity_length_le (fun _ => 0) 0 48000 [60, 61] 2 16
    (by decide) (by decide) _
    (by rw [List.getD_eq_getElem _ _ hlen]; exact List.getElem_mem hlen)

/-- Counterexample to C9 as stated: AssignSamplesToParts with
num_velocity_steps = 33 resizes the velocity pattern to the unclamped
argument (pattern_generator_wrapper.cpp line 132), so the created
mapping's sequence has length 33 > 32. -/
theorem assign_velocity_length_cex :
    ¬ (∀ m ∈ (assignSamplesToParts (fun _ => 0) 0 48000 [60] 1 33).1,
        m.velocityPattern.length ≤ 32) := by
  decide

theorem shuffleDivisorsGo_mem :
    ∀ i, i ≤ sizeTMod - 2 → ∀ d ∈ shuffleDivisorsGo i, d ≠ 0 := by
  have hM : sizeTMod = 18446744073709551616 := by norm_num [sizeTMod]
  intro i
  induction i with
  | zero => intro _ d hd; simp [shuffleDivisorsGo] at hd
  | succ i ih =>
    intro hle d hd
    simp only [shuffleDivisorsGo, List.mem_cons] at hd
    rcases hd with hd | hd
    · subst hd
      rw [Nat.mod_eq_of_lt (by omega)]
      omega
    · exact ih (by omega) d hd

/-- C10 (amended): for every non-empty input note list (of any length
a real vector can have, i.e. below 2^64), every divisor `i + 1` in the
shuffle loop's `rand() % (i + 1)` is non-zero. -/
theorem shuffle_divisors_nonzero (l : List ℕ) (hne : l ≠ [])
    (hlen : l.length < sizeTMod) :
    ∀ d ∈ shuffleDivisors l.length, d ≠ 0 := by
  have hM : sizeTMod = 18446744073709551616 := by norm_num [sizeTMod]
  have h1 : 0 < l.length := List.length_pos.mpr hne
  have hstart : shuffleStart l.length = l.length - 1 := by
    unfold shuffleStart
    have hsplit : l.length + (sizeTMod - 1) = sizeTMod + (l.length - 1) := by
      omega
    rw [hsplit, Nat.add_mod_left, Nat.mod_eq_of_lt (by omega)]
  rw [shuffleDivisors, hstart]
  exact shuffleDivisorsGo_mem (l.length - 1) (by omega)

/-- Witness for C10 (amended): a three-note list has shuffle divisors
[3, 2]; the first of them is non-zero. -/
theorem shuffle_divisors_nonzero_w :
    (shuffleDivisors ([60, 61, 62] : List ℕ).length).getD 0 0 ≠ 0 :=
  shuffle_divisors_nonzero [60, 61, 62] (by decide) (by norm_num [sizeTMod])
    _ (by decide)

/-- Counterexample to C10 as stated: for the empty note list the loop
start index `shuffled.size() - 1` wraps to 2^64 - 1 in size_t
arithmetic, the loop guard `i > 0` holds, and the first iteration's
divisor `i + 1` wraps to 0 — `rand() % 0`, undefined behaviour in C. -/
theorem shuffle_divisors_zero_cex :
    ¬ (∀ d ∈ shuffleDivisors (([] : List ℕ)).length, d ≠ 0) := by
  have hM : sizeTMod = 18446744073709551616 := by norm_num [sizeTMod]
  have hs : shuffleStart (([] : List ℕ)).length = sizeTMod - 1 := by
    unfold shuffleStart
    simp only [List.length_nil, Nat.zero_add]
    exact Nat.mod_eq_of_lt (by omega)
  have hsucc : sizeTMod - 1 = (sizeTMod - 2) + 1 := by omega
  have hzero : shuffleDivisors (([] : List ℕ)).length
      = 0 :: shuffleDivisorsGo (sizeTMod - 2) := by
    rw [shuffleDivisors, hs, hsucc]
    show ((sizeTMod - 2) + 2) % sizeTMod :: shuffleDivisorsGo (sizeTMod - 2)
        = _
    rw [show (sizeTMod - 2) + 2 = sizeTMod by omega, Nat.mod_self]
  intro hAll
  exact hAll 0 (hzero ▸ List.mem_cons_self 0 _) rfl

/-- C2: For every state of the engine and every midi note for which the
sample bank returns no sample, or a sample with empty data, Trigger
leaves the entire SamplePlayer state unchanged — hence no voice slot is
modified, the round-robin cursor does not advance and both counters are
untouched. -/
theorem trigger_missing_sample_noop (cF sF : ℚ → ℚ) (piQ : ℚ)
    (s : PlayerState) (b : SampleLookup) (note : ℕ) (vel pan : ℚ)
    (hb : s.bank = some b)
    (hmiss : b note = none ∨ ∃ smp, b note = some smp ∧ smp.data = []) :
    trigger cF sF piQ s note vel pan = s := by
  rcases hmiss with h | ⟨smp, h, hd⟩
  · simp [trigger, hb, h]
  · simp [trigger, hb, h, hd]

/-- Witness for C2: a fresh player over the empty bank is left exactly
unchanged by a trigger. -/
theorem trigger_missing_sample_noop_w :
    (initPlayer emptyBank 48000).bank = some emptyBank ∧
    trigger constZero constZero 0 (initPlayer emptyBank 48000) 60 1 0
      = initPlayer emptyBank 48000 :=
  ⟨rfl, trigger_missing_sample_noop constZero constZero 0
    (initPlayer emptyBank 48000) emptyBank 60 1 0 rfl (Or.inl rfl)⟩

theorem findIdx_none_of_all_active (l : List PendingTrigger)
    (h : ∀ t ∈ l, t.active = true) :
    l.findIdx? (fun t => !t.active) = none := by
  induction l with
  | nil => rfl
  | cons t ts ih =>
    have ht := h t (List.mem_cons_self t ts)
    have hts : ∀ u ∈ ts, u.active = true := fun u hu => h u (List.mem_cons_of_mem t hu)
    simp [List.findIdx?_cons, ht, ih hts]

/-- C6: when all pending-trigger slots are active, QueueHumanizedTrigger
fires the trigger into the voice pool immediately with its note,
velocity and pan; the table and the RNG are untouched. -/
theorem queue_full_fires_immediately (cF sF : ℚ → ℚ) (piQ : ℚ)
    (d : TrigDest) (note : ℕ) (vel pan : ℚ)
    (h : ∀ t ∈ d.pending, t.active = true) :
    queueHumanizedTrigger cF sF piQ d note vel pan
      = { d with player := trigger cF sF piQ d.player note vel pan } := by
  unfold queueHumanizedTrigger
  rw [findIdx_none_of_all_active d.pending h]

/-- Witness for C6: a completely busy 64-slot table falls through to an
immediate voice-pool trigger. -/
theorem queue_full_fires_immediately_w :
    (∀ t ∈ (List.replicate kMaxPendingTriggers busySlot), t.active = true) ∧
    queueHumanizedTrigger constZero constZero 0
        { demoDest with pending := List.replicate kMaxPendingTriggers busySlot }
        60 1 0
      = { demoDest with
          pending := List.replicate kMaxPendingTriggers busySlot,
          player := trigger constZero constZero 0 demoDest.player 60 1 0 } :=
  ⟨by decide, queue_full_fires_immediately constZero constZero 0
    { demoDest with pending := List.replicate kMaxPendingTriggers busySlot }
    60 1 0 (by decide)⟩

/-- C5: the humanize RNG is the linear-congruential update
`state·1664525 + 1013904223` in uint32 arithmetic; every delay it samples
for a queued trigger lies in [0, 2·maxJitterFrames]; and with a zero
jitter window every routed trigger bypasses the pending queue and reaches
the voice pool directly. -/
theorem humanize_delay_spec :
    (∀ st : ℕ, humanizeRand st = (st * 1664525 + 1013904223) % uint32Mod)
    ∧ (∀ rngState hmf : ℕ, (sampleDelay rngState hmf).1 ≤ 2 * hmf)
    ∧ (∀ (cF sF : ℚ → ℚ) (piQ : ℚ) (d : TrigDest) (note : ℕ) (vel pan : ℚ),
        d.humanizeMaxFrames = 0 →
        routeTrigger cF sF piQ d note vel pan
          = { d with player := trigger cF sF piQ d.player note vel pan }) := by
  refine ⟨fun _ => rfl, fun r h => ?_, fun cF sF piQ d note vel pan h0 => ?_⟩
  · show humanizeRand r % ((2 * h + 1) % uint32Mod) ≤ 2 * h
    have hdvd : (2 : ℕ) ∣ uint32Mod := ⟨2 ^ 31, by norm_num [uint32Mod]⟩
    have hodd : ((2 * h + 1) % uint32Mod) % 2 = 1 := by
      rw [Nat.mod_mod_of_dvd _ hdvd]
      omega
    have hpos : 0 < (2 * h + 1) % uint32Mod := by omega
    have hlt := Nat.mod_lt (humanizeRand r) hpos
    have hle : (2 * h + 1) % uint32Mod ≤ 2 * h + 1 := Nat.mod_le _ _
    omega
  · unfold routeTrigger
    rw [h0]
    simp

/-- Witness for C5: a concrete sampled delay lies in the window, and with
the zero-humanize routing state the trigger goes straight to the
player. -/
theorem humanize_delay_spec_w :
    (sampleDelay 7 10).1 ≤ 2 * 10
    ∧ demoDest.humanizeMaxFrames = 0
    ∧ routeTrigger constZero constZero 0 demoDest 60 1 0
        = { demoDest with
            player := trigger constZero constZero 0 demoDest.player 60 1 0 } :=
  ⟨humanize_delay_spec.2.1 7 10, rfl,
    humanize_delay_spec.2.2 constZero constZero 0 demoDest 60 1 0 rfl⟩

end GridsJack
